import Mathlib

/-!
Verification development for a labor-market network dashboard
(`src/app.py`).  The app ingests tabular vacancy postings, filters them,
builds co-occurrence / grouped / multilevel matrices, derives weighted
graphs, and produces ranked similar-node recommendations.

The reactive pipeline (`processed_data`, `filtered_data`, the matrix and
graph calcs, and the metric-choice dispatch in the widget renderers) is
embedded directly from `src/app.py`.  The helper module `netfunction`
(skill parsing, matrix builders, graph builders, edge filtering, the
recommender, the non-zero mean) is not part of the source tree; those
functions are modelled from the specification, as marked in their doc
comments.
-/

namespace NetworkDashboard

/-- A raw table row, as read from the uploaded file.  `employer` and
`salary` are `Option` because the corresponding pandas columns may hold
missing values (NaN); `skillText` is the free-text skill field. -/
structure RawRecord where
  employer : Option String
  region : String
  specialty : String
  experience : String
  salary : Option ℚ
  pubDate : Int
  skillText : Option String
deriving DecidableEq, Repr

/-- A processed row: skills parsed, federal district derived. -/
structure Record where
  employer : Option String
  region : String
  district : String
  specialty : String
  experience : String
  salary : Option ℚ
  pubDate : Int
  skills : List String
deriving DecidableEq, Repr

/-- Split a character list at every occurrence of the separator. -/
def splitChars (sep : Char) : List Char → List (List Char)
  | [] => [[]]
  | c :: cs =>
    if c = sep then [] :: splitChars sep cs
    else
      match splitChars sep cs with
      | [] => [[c]]
      | t :: ts => (c :: t) :: ts

/-- Strip leading and trailing spaces from a character list. -/
def trimChars (cs : List Char) : List Char :=
  ((cs.dropWhile (· = ' ')).reverse.dropWhile (· = ' ')).reverse

/-- Modelled from the spec: `netfunction.parse_skills` is missing from the
source tree.  Per the spec, it splits a delimiter-separated free-text field
into normalized tokens (trimmed, case-normalized), returns an empty
sequence for missing/empty input, drops unparseable (empty) fragments, and
removes duplicates within a record. -/
def parse_skills (raw : Option String) : List String :=
  match raw with
  | none => []
  | some s =>
    ((((splitChars ',' s.data).map (fun t => trimChars (t.map Char.toLower))).filter
      (fun t => !t.isEmpty)).map (fun t => String.mk t)).dedup

/-- Modelled from the spec: the fixed region→federal-district table used by
`netfunction.get_federal_district` (missing from the source tree),
abbreviated to representative entries; no claim depends on its contents. -/
def districtTable : List (String × String) :=
  [("Москва", "Центральный"), ("Санкт-Петербург", "Северо-Западный"),
   ("Новосибирская область", "Сибирский")]

/-- Modelled from the spec: `netfunction.get_federal_district` is missing
from the source tree.  Deterministic lookup in a fixed table; unknown
region names map to a sentinel category rather than failing. -/
def get_federal_district (region : String) : String :=
  match districtTable.lookup region with
  | some d => d
  | none => "Неизвестно"

/-- Embeds `processed_data` (src/app.py lines 82-92): parse the skill
field, drop rows with a missing employer, derive the federal district. -/
def processed_data (raw : List RawRecord) : List Record :=
  (raw.filter (fun r => r.employer.isSome)).map (fun r =>
    { employer := r.employer
      region := r.region
      district := get_federal_district r.region
      specialty := r.specialty
      experience := r.experience
      salary := r.salary
      pubDate := r.pubDate
      skills := parse_skills r.skillText })

/-- The state of the sidebar filter widgets feeding `filtered_data`
(src/app.py lines 132-151).  `none` / `[]` model a falsy widget value, for
which the corresponding `if input.x():` branch is skipped. -/
structure FilterInputs where
  pubDate : Option (Int × Int)
  experience : List String
  region : List String
  salary : Option (ℚ × ℚ)
  employer : List String
  specialty : List String
deriving DecidableEq, Repr

/-- The `FilterInputs` value in which every widget is empty/falsy. -/
def FilterInputs.empty : FilterInputs :=
  { pubDate := none, experience := [], region := [], salary := none,
    employer := [], specialty := [] }

/-- Publication-date step of `filtered_data` (src/app.py lines 135-138). -/
def dateStep (inp : FilterInputs) (data : List Record) : List Record :=
  match inp.pubDate with
  | none => data
  | some (s, e) => data.filter (fun r => decide (s ≤ r.pubDate) && decide (r.pubDate ≤ e))

/-- Experience step of `filtered_data` (src/app.py lines 139-140). -/
def expStep (inp : FilterInputs) (data : List Record) : List Record :=
  if inp.experience.isEmpty then data
  else data.filter (fun r => inp.experience.contains r.experience)

/-- Region step of `filtered_data` (src/app.py lines 141-142). -/
def regionStep (inp : FilterInputs) (data : List Record) : List Record :=
  if inp.region.isEmpty then data
  else data.filter (fun r => inp.region.contains r.region)

/-- Salary step of `filtered_data` (src/app.py lines 143-146).  A missing
salary (pandas NaN) fails both comparisons, hence is excluded. -/
def salaryStep (inp : FilterInputs) (data : List Record) : List Record :=
  match inp.salary with
  | none => data
  | some (lo, hi) =>
    data.filter (fun r =>
      match r.salary with
      | none => false
      | some s => decide (lo ≤ s) && decide (s ≤ hi))

/-- Employer step of `filtered_data` (src/app.py lines 147-148).  A missing
employer fails the `isin` test (pandas NaN semantics). -/
def employerStep (inp : FilterInputs) (data : List Record) : List Record :=
  if inp.employer.isEmpty then data
  else data.filter (fun r =>
    match r.employer with
    | none => false
    | some e => inp.employer.contains e)

/-- Specialty step of `filtered_data` (src/app.py lines 149-150). -/
def specialtyStep (inp : FilterInputs) (data : List Record) : List Record :=
  if inp.specialty.isEmpty then data
  else data.filter (fun r => inp.specialty.contains r.specialty)

/-- Embeds `filtered_data` (src/app.py lines 132-151): the six filter steps
applied in source order to the processed dataset. -/
def filtered_data (inp : FilterInputs) (data : List Record) : List Record :=
  specialtyStep inp (employerStep inp (salaryStep inp
    (regionStep inp (expStep inp (dateStep inp data)))))

/-- A labeled numeric matrix (a pandas DataFrame with row and column
labels); `cell` gives the value at a (row label, column label) pair. -/
structure Matrix where
  rows : List String
  cols : List String
  cell : String → String → ℚ

/-- The empty matrix, `pd.DataFrame()`. -/
def Matrix.emptyM : Matrix := ⟨[], [], fun _ _ => 0⟩

/-- `DataFrame.empty`: no rows or no columns. -/
def Matrix.isEmpty (m : Matrix) : Bool := m.rows.isEmpty || m.cols.isEmpty

/-- The multi-valued projection of a record onto a named dataframe column,
as used by the matrix builders (the skill column holds a list, the
category columns hold one value, a missing employer holds none). -/
def fieldValues (r : Record) (field : String) : List String :=
  if field = "Обработанные навыки" then r.skills
  else if field = "Название специальности" then [r.specialty]
  else if field = "Работодатель" then r.employer.toList
  else if field = "Название региона" then [r.region]
  else if field = "Федеральный округ" then [r.district]
  else []

/-- Modelled from the spec: `netfunction.create_co_occurrence_matrix` is
missing from the source tree.  Per the spec, cell (i,j) counts the records
in whose parsed skill set entities i and j co-occur, with the diagonal
cleared; the vocabulary is the union of all skills seen across records. -/
def create_co_occurrence_matrix (data : List Record) (field : String) : Matrix :=
  let vocab := (data.flatMap (fun r => fieldValues r field)).dedup
  ⟨vocab, vocab, fun i j =>
    if i = j then 0
    else ((data.filter (fun r =>
      (fieldValues r field).contains i && (fieldValues r field).contains j)).length : ℚ)⟩

/-- Modelled from the spec: `netfunction.create_group_values_matrix` is
missing from the source tree.  Per the spec, it groups records by the
(row value, column value) pair and counts once per (row value, record)
pair, tolerating a multi-valued row field such as the skill set. -/
def create_group_values_matrix (data : List Record) (colVar rowVar : String) : Matrix :=
  ⟨(data.flatMap (fun r => fieldValues r rowVar)).dedup,
   (data.flatMap (fun r => fieldValues r colVar)).dedup,
   fun i j => ((data.filter (fun r =>
     (fieldValues r rowVar).contains i && (fieldValues r colVar).contains j)).length : ℚ)⟩

/-- Modelled from the spec: `netfunction.create_whole_matrix` is missing
from the source tree.  Per the spec, it assembles the block matrix over the
union of the grouped matrix's row and column labels: the grouped matrix in
the off-diagonal blocks (transposed for symmetry), a co-occurrence matrix
restricted to the row vocabulary in the diagonal block when
`use_co_occurrence` is set, zero elsewhere; an empty grouped matrix yields
an empty result. -/
def create_whole_matrix (m : Matrix) (data : List Record)
    (use_co_occurrence : Bool) (skills_field : String) : Matrix :=
  if m.isEmpty then Matrix.emptyM
  else
    let vocab := (m.rows ++ m.cols).dedup
    let co := create_co_occurrence_matrix data skills_field
    ⟨vocab, vocab, fun i j =>
      if i ∈ m.rows ∧ j ∈ m.rows then (if use_co_occurrence then co.cell i j else 0)
      else if i ∈ m.rows ∧ j ∈ m.cols then m.cell i j
      else if i ∈ m.cols ∧ j ∈ m.rows then m.cell j i
      else 0⟩

/-- Partition tag of a graph node: bipartite row-type, bipartite
column-type, or untyped (graphs built from a square matrix). -/
inductive NodeTag where
  | row : NodeTag
  | col : NodeTag
  | plain : NodeTag
deriving DecidableEq, Repr

/-- A weighted graph: tagged nodes plus weighted edges (endpoint labels and
a numeric weight). -/
structure Graph where
  nodes : List (String × NodeTag)
  edges : List (String × String × ℚ)
deriving DecidableEq, Repr

/-- The ordered list of unordered label pairs of a vocabulary: each pair
appears once, in vocabulary order. -/
def upperPairs : List String → List (String × String)
  | [] => []
  | x :: xs => xs.map (fun y => (x, y)) ++ upperPairs xs

/-- Modelled from the spec: conversion of a square labeled matrix to a
graph (`nx.from_pandas_adjacency` in the source).  One untyped node per
label; one undirected edge per strictly-positive off-diagonal cell, weight
equal to the cell value; symmetric cells collapse to a single edge. -/
def graphFromSquare (m : Matrix) : Graph :=
  { nodes := m.rows.map (fun l => (l, NodeTag.plain)),
    edges := (upperPairs m.rows).filterMap (fun p =>
      if 0 < m.cell p.1 p.2 then some (p.1, p.2, m.cell p.1 p.2) else none) }

/-- Modelled from the spec: `netfunction.create_bipartite_graph` is missing
from the source tree.  Per the spec, one node per row label (partition
"row") and one per column label (partition "column"); one edge per
strictly-positive cell with weight equal to the cell value; no edge between
two nodes of the same partition; zero cells never materialize. -/
def create_bipartite_graph (m : Matrix) : Graph :=
  { nodes := m.rows.map (fun l => (l, NodeTag.row)) ++ m.cols.map (fun l => (l, NodeTag.col)),
    edges := m.rows.flatMap (fun r => m.cols.filterMap (fun c =>
      if 0 < m.cell r c then some (r, c, m.cell r c) else none)) }

/-- Modelled from the spec: `netfunction.filter_graph` is missing from the
source tree.  Per the spec, edge-weight thresholding removes every edge
with weight strictly below the threshold and keeps every node, including
nodes left isolated. -/
def filter_graph (G : Graph) (threshold : ℚ) : Graph :=
  { nodes := G.nodes,
    edges := G.edges.filter (fun e => decide (threshold ≤ e.2.2)) }

/-- Embeds the reactive calc `semantic_cooccurrence_matrix` (src/app.py
lines 154-159): the empty dataset yields the empty matrix. -/
def semantic_cooccurrence_matrix (data : List Record) : Matrix :=
  if data.isEmpty then Matrix.emptyM
  else create_co_occurrence_matrix data "Обработанные навыки"

/-- Embeds the reactive calc `semantic_graph` (src/app.py lines 183-189):
an empty matrix yields no graph. -/
def semantic_graph (matrix : Matrix) : Option Graph :=
  if matrix.isEmpty then none else some (graphFromSquare matrix)

/-- Embeds the reactive calc `bipartite_matrix_custom` (src/app.py lines
192-200): the empty dataset yields the empty matrix; unset selects fall
back to the default column/row variables. -/
def bipartite_matrix_custom (colSel rowSel : Option String) (data : List Record) : Matrix :=
  if data.isEmpty then Matrix.emptyM
  else
    create_group_values_matrix data (colSel.getD "Название специальности")
      (rowSel.getD "Обработанные навыки")

/-- Embeds the reactive calc `bipartite_graph` (src/app.py lines 203-208):
an empty matrix yields no graph. -/
def bipartite_graph (matrix : Matrix) : Option Graph :=
  if matrix.isEmpty then none else some (create_bipartite_graph matrix)

/-- Embeds the reactive calc `multilevel_matrix` (src/app.py lines
162-172): the empty dataset yields the empty matrix, otherwise the whole
matrix over the custom bipartite matrix. -/
def multilevel_matrix (colSel rowSel : Option String) (data : List Record) : Matrix :=
  if data.isEmpty then Matrix.emptyM
  else create_whole_matrix (bipartite_matrix_custom colSel rowSel data) data true
    "Обработанные навыки"

/-- Embeds the reactive calc `multilevel_graph` (src/app.py lines 175-180):
an empty matrix yields no graph. -/
def multilevel_graph (matrix : Matrix) : Option Graph :=
  if matrix.isEmpty then none else some (graphFromSquare matrix)

/-- Insert an element into a list so that elements on which the comparison
holds stay in front (insertion step of `sortWith`). -/
def insWith (le : α → α → Bool) (a : α) : List α → List α
  | [] => [a]
  | b :: bs => if le a b then a :: b :: bs else b :: insWith le a bs

/-- Insertion sort by a Boolean comparison. -/
def sortWith (le : α → α → Bool) : List α → List α
  | [] => []
  | a :: as => insWith le a (sortWith le as)

/-- Ranking order on scored nodes: strictly larger score first, ties broken
by ascending node label (the spec's determinism rule). -/
def recLE (x y : String × ℚ) : Bool :=
  decide (y.2 < x.2) || (decide (x.2 = y.2) && decide (x.1 ≤ y.1))

/-- Dot product of two numeric vectors of equal length. -/
def dotProd (u v : List ℚ) : ℚ := (List.zipWith (· * ·) u v).sum

/-- Squared cosine similarity of two vectors, as a rational: the square of
the spec's cosine score.  The vectors at hand are componentwise
non-negative edge-weight vectors, so their cosine is non-negative and
squaring is a strictly monotone relabeling of the scores — the ranking it
induces is the cosine ranking.  A zero-magnitude vector gets score 0. -/
def cosSq (u v : List ℚ) : ℚ :=
  let nn := dotProd u u * dotProd v v
  if nn = 0 then 0 else dotProd u v * dotProd u v / nn

/-- Labels of the axis selected by a level target: "first" selects the
column partition, anything else the row partition (matching the caller in
src/app.py line 611, where the "Колонка" node position maps to "first"). -/
def axisNodes (G : Graph) (level_target : String) : List String :=
  let tag := if level_target = "first" then NodeTag.col else NodeTag.row
  G.nodes.filterMap (fun p => if p.2 = tag then some p.1 else none)

/-- Weight of the edge joining two labels, in either orientation; 0 when no
such edge exists. -/
def edgeWeight (G : Graph) (a b : String) : ℚ :=
  match G.edges.find? (fun e =>
    (decide (e.1 = a) && decide (e.2.1 = b)) || (decide (e.1 = b) && decide (e.2.1 = a))) with
  | some e => e.2.2
  | none => 0

/-- Feature vector of an axis node: its edge weights towards the nodes of
the opposite axis, in that axis's order. -/
def featureVec (G : Graph) (other : List String) (a : String) : List ℚ :=
  other.map (fun b => edgeWeight G a b)

/-- Modelled from the spec: `netfunction.recommend_similar_nodes` is
missing from the source tree.  Per the spec, the target node's vector on
the chosen axis is compared by cosine similarity (here represented by its
square, `cosSq`, which induces the same ranking) against every other node's
vector on the same axis; the target itself is excluded, the list is sorted
by descending score with ties broken by ascending label, and it is
truncated to the requested top-N; an absent target yields the empty
list. -/
def recommend_similar_nodes (G : Graph) (node : String) (level_target : String)
    (top_n : Nat) : List (String × ℚ) :=
  let axis := axisNodes G level_target
  if node ∈ axis then
    let other := axisNodes G (if level_target = "first" then "second" else "first")
    let target := featureVec G other node
    let scored := (axis.filter (fun b => b ≠ node)).map
      (fun b => (b, cosSq target (featureVec G other b)))
    (sortWith recLE scored).take top_n
  else []

/-- Modelled from the spec: `netfunction.nonzero_mean` is missing from the
source tree.  Per the spec, it is the mean of a numeric collection with
zero and missing values excluded from both numerator and denominator, and
it returns a defined sentinel (NaN, modelled as `none`) when the filtered
collection is empty. -/
def nonzero_mean (values : List (Option ℚ)) : Option ℚ :=
  let nz := (values.filterMap id).filter (fun v => v ≠ 0)
  if nz.isEmpty then none else some (nz.sum / (nz.length : ℚ))

/-- The three centrality metrics offered by the node-size selectize
widgets, plus which `networkx` function each maps to. -/
inductive MetricKind where
  | degree : MetricKind
  | closeness : MetricKind
  | betweenness : MetricKind
deriving DecidableEq, Repr

/-- Embeds the metric dispatch of the bipartite-graph panel renderer
`widget` (src/app.py lines 389-397): an if/elif/else chain whose final
`else` falls back to degree centrality. -/
def widget_metric_choice (metric_choice : String) : MetricKind :=
  if metric_choice = "degree_centrality" then MetricKind.degree
  else if metric_choice = "closeness_centrality" then MetricKind.closeness
  else if metric_choice = "betweenness_centrality" then MetricKind.betweenness
  else MetricKind.degree

/-- Embeds the metric dispatch of the semantic-graph panel renderer
`widget_semantic` (src/app.py lines 474-482): same chain, same final
`else` fallback to degree centrality. -/
def widget_semantic_metric_choice (metric_choice : String) : MetricKind :=
  if metric_choice = "degree_centrality" then MetricKind.degree
  else if metric_choice = "closeness_centrality" then MetricKind.closeness
  else if metric_choice = "betweenness_centrality" then MetricKind.betweenness
  else MetricKind.degree

/-- Embeds the metric dispatch of the multilevel-graph panel renderer
`widget_multilevel` (src/app.py lines 563-569): an if/elif/elif chain with
no `else`, so an unrecognized choice leaves the `metric` variable unbound
(`none` here; in Python, a `NameError` at the following use site). -/
def widget_multilevel_metric_choice (metric_choice : String) : Option MetricKind :=
  if metric_choice = "degree_centrality" then some MetricKind.degree
  else if metric_choice = "closeness_centrality" then some MetricKind.closeness
  else if metric_choice = "betweenness_centrality" then some MetricKind.betweenness
  else none

/-- A processed record with the given skill list and employer, and fixed
values elsewhere; used for concrete test inputs. -/
def exRec (skills : List String) : Record :=
  { employer := some "e", region := "Москва", district := "Центральный",
    specialty := "Аналитик", experience := "1-3", salary := some 100,
    pubDate := 10, skills := skills }

/-- The three records of the co-occurrence example: skill sets
{s1,s2}, {s1,s3}, {s2,s3}. -/
def exSkillRecords : List Record :=
  [exRec ["s1", "s2"], exRec ["s1", "s3"], exRec ["s2", "s3"]]

/-- The grouped matrix of the bipartite example: rows {A,B}, columns
{X,Y}, counts A-X=3, A-Y=0, B-X=1, B-Y=2. -/
def exMatrix : Matrix :=
  ⟨["A", "B"], ["X", "Y"], fun r c =>
    if r = "A" ∧ c = "X" then 3
    else if r = "B" ∧ c = "X" then 1
    else if r = "B" ∧ c = "Y" then 2
    else 0⟩

/-- The bipartite graph of the example matrix, used as a concrete graph
input. -/
def exGraph : Graph := create_bipartite_graph exMatrix

/-- C4: for every graph and numeric threshold, `filter_graph` keeps every
node, keeps exactly the edges whose weight is not strictly below the
threshold, and — since edge weights are positive — filtering at threshold 0
leaves the edge set identical to the input's. -/
theorem filter_graph_threshold_spec (G : Graph) (t : ℚ)
    (hpos : ∀ e ∈ G.edges, 0 < e.2.2) :
    (filter_graph G t).nodes = G.nodes ∧
    (∀ e : String × String × ℚ, e ∈ (filter_graph G t).edges ↔ e ∈ G.edges ∧ ¬(e.2.2 < t)) ∧
    (filter_graph G 0).edges = G.edges := by
  refine ⟨rfl, ?_, ?_⟩
  · intro e
    simp [filter_graph, List.mem_filter, not_lt]
  · apply List.filter_eq_self.mpr
    intro e he
    simpa using le_of_lt (hpos e he)

/-- C4 witness: the spec instantiated on the example bipartite graph at
threshold 2. -/
theorem filter_graph_threshold_spec_witness :
    (∀ e ∈ exGraph.edges, 0 < e.2.2) ∧
    ((filter_graph exGraph 2).nodes = exGraph.nodes ∧
     (∀ e : String × String × ℚ,
        e ∈ (filter_graph exGraph 2).edges ↔ e ∈ exGraph.edges ∧ ¬(e.2.2 < 2)) ∧
     (filter_graph exGraph 0).edges = exGraph.edges) :=
  ⟨by decide, filter_graph_threshold_spec exGraph 2 (by decide)⟩

/-- C5 counterexample: the claim says every graph panel silently falls back
to degree centrality on an unrecognized centrality kind, but the
multilevel panel's dispatch ("widget_multilevel", src/app.py lines
563-569) has no else branch: for the unrecognized kind "pagerank" it
selects no metric at all (in Python, a NameError), not degree
centrality. -/
theorem multilevel_metric_no_fallback :
    ("pagerank" = "degree_centrality" → False) ∧
    ("pagerank" = "closeness_centrality" → False) ∧
    ("pagerank" = "betweenness_centrality" → False) ∧
    widget_multilevel_metric_choice "pagerank" ≠ some MetricKind.degree ∧
    widget_multilevel_metric_choice "pagerank" = none := by
  refine ⟨by decide, by decide, by decide, by decide, by decide⟩

/-- C5 (amended): on an unrecognized centrality kind the bipartite-graph
panel and the semantic-graph panel silently fall back to degree
centrality, while the multilevel panel selects no metric (its dispatch
chain has no else branch). -/
theorem metric_choice_fallback (c : String)
    (h1 : c ≠ "degree_centrality") (h2 : c ≠ "closeness_centrality")
    (h3 : c ≠ "betweenness_centrality") :
    widget_metric_choice c = MetricKind.degree ∧
    widget_semantic_metric_choice c = MetricKind.degree ∧
    widget_multilevel_metric_choice c = none := by
  simp [widget_metric_choice, widget_semantic_metric_choice,
    widget_multilevel_metric_choice, h1, h2, h3]

/-- C5 witness: the amended fallback behavior at the concrete unrecognized
kind "pagerank". -/
theorem metric_choice_fallback_witness :
    ("pagerank" ≠ "degree_centrality" ∧ "pagerank" ≠ "closeness_centrality" ∧
     "pagerank" ≠ "betweenness_centrality") ∧
    (widget_metric_choice "pagerank" = MetricKind.degree ∧
     widget_semantic_metric_choice "pagerank" = MetricKind.degree ∧
     widget_multilevel_metric_choice "pagerank" = none) :=
  ⟨⟨by decide, by decide, by decide⟩,
   metric_choice_fallback "pagerank" (by decide) (by decide) (by decide)⟩

/-- C6: the non-zero aggregate is the mean with zero and missing values
excluded from both numerator and denominator — prepending a zero or a
missing value never changes the result — and on the spec's examples it
returns 15 on [0,0,10,20] and the undefined sentinel on [0,0]. -/
theorem nonzero_mean_spec :
    (∀ vs : List (Option ℚ), nonzero_mean (some 0 :: vs) = nonzero_mean vs) ∧
    (∀ vs : List (Option ℚ), nonzero_mean (none :: vs) = nonzero_mean vs) ∧
    nonzero_mean [some 0, some 0, some 10, some 20] = some 15 ∧
    nonzero_mean [some 0, some 0] = none := by
  refine ⟨?_, ?_, ?_, ?_⟩
  · intro vs
    simp only [nonzero_mean, List.filterMap_cons, id_eq, List.filter_cons, ne_eq, decide_not]
    simp
  · intro vs
    simp only [nonzero_mean, List.filterMap_cons, id_eq]
  · simp only [nonzero_mean, List.filterMap_cons, id_eq, List.filterMap_nil,
      List.filter_cons, List.filter_nil]
    norm_num
  · simp only [nonzero_mean, List.filterMap_cons, id_eq, List.filterMap_nil,
      List.filter_cons, List.filter_nil]
    norm_num

/-- C7: on an empty upstream input every pipeline stage returns its
explicit "no result" value — each matrix builder maps the empty dataset to
an empty matrix, and each graph builder maps an empty matrix to the
no-graph value `none`. -/
theorem empty_input_spec (data : List Record) (m : Matrix) (cs rs : Option String)
    (hd : data = []) (hm : m.isEmpty = true) :
    (semantic_cooccurrence_matrix data).isEmpty = true ∧
    (bipartite_matrix_custom cs rs data).isEmpty = true ∧
    (multilevel_matrix cs rs data).isEmpty = true ∧
    semantic_graph m = none ∧
    bipartite_graph m = none ∧
    multilevel_graph m = none := by
  subst hd
  refine ⟨by simp [semantic_cooccurrence_matrix, Matrix.emptyM, Matrix.isEmpty],
    by simp [bipartite_matrix_custom, Matrix.emptyM, Matrix.isEmpty],
    by simp [multilevel_matrix, Matrix.emptyM, Matrix.isEmpty],
    by simp [semantic_graph, hm], by simp [bipartite_graph, hm],
    by simp [multilevel_graph, hm]⟩

/-- C7 witness: the empty-input behavior at the concrete empty dataset and
the concrete empty matrix. -/
theorem empty_input_spec_witness :
    (([] : List Record) = [] ∧ Matrix.emptyM.isEmpty = true) ∧
    ((semantic_cooccurrence_matrix []).isEmpty = true ∧
     (bipartite_matrix_custom none none []).isEmpty = true ∧
     (multilevel_matrix none none []).isEmpty = true ∧
     semantic_graph Matrix.emptyM = none ∧
     bipartite_graph Matrix.emptyM = none ∧
     multilevel_graph Matrix.emptyM = none) :=
  ⟨⟨rfl, rfl⟩, empty_input_spec [] Matrix.emptyM none none rfl rfl⟩

/-- C10: each of the date, experience, region, employer and specialty
steps of `filtered_data` is the identity when its filter input is empty,
and with every filter input empty `filtered_data` returns the processed
dataset unchanged. -/
theorem empty_filters_no_restriction :
    (∀ (inp : FilterInputs) (d : List Record), inp.pubDate = none → dateStep inp d = d) ∧
    (∀ (inp : FilterInputs) (d : List Record), inp.experience = [] → expStep inp d = d) ∧
    (∀ (inp : FilterInputs) (d : List Record), inp.region = [] → regionStep inp d = d) ∧
    (∀ (inp : FilterInputs) (d : List Record), inp.employer = [] → employerStep inp d = d) ∧
    (∀ (inp : FilterInputs) (d : List Record), inp.specialty = [] → specialtyStep inp d = d) ∧
    (∀ d : List Record, filtered_data FilterInputs.empty d = d) := by
  refine ⟨?_, ?_, ?_, ?_, ?_, ?_⟩
  · intro inp d h; simp [dateStep, h]
  · intro inp d h; simp [expStep, h]
  · intro inp d h; simp [regionStep, h]
  · intro inp d h; simp [employerStep, h]
  · intro inp d h; simp [specialtyStep, h]
  · intro d
    simp [filtered_data, FilterInputs.empty, dateStep, expStep, regionStep,
      salaryStep, employerStep, specialtyStep]

/-- C10 witness: the no-restriction behavior at the all-empty filter state
on a concrete dataset. -/
theorem empty_filters_no_restriction_witness :
    FilterInputs.empty.pubDate = none ∧
    dateStep FilterInputs.empty exSkillRecords = exSkillRecords ∧
    filtered_data FilterInputs.empty exSkillRecords = exSkillRecords :=
  ⟨rfl, empty_filters_no_restriction.1 FilterInputs.empty exSkillRecords rfl,
   empty_filters_no_restriction.2.2.2.2.2 exSkillRecords⟩

/-- The date test applied by `dateStep` (trivially true when the widget is
unset). -/
def datePred (inp : FilterInputs) (r : Record) : Bool :=
  match inp.pubDate with
  | none => true
  | some (s, e) => decide (s ≤ r.pubDate) && decide (r.pubDate ≤ e)

/-- The experience test applied by `expStep`. -/
def expPred (inp : FilterInputs) (r : Record) : Bool :=
  inp.experience.isEmpty || inp.experience.contains r.experience

/-- The region test applied by `regionStep`. -/
def regionPred (inp : FilterInputs) (r : Record) : Bool :=
  inp.region.isEmpty || inp.region.contains r.region

/-- The salary test applied by `salaryStep`; a missing salary fails it. -/
def salaryPred (inp : FilterInputs) (r : Record) : Bool :=
  match inp.salary with
  | none => true
  | some (lo, hi) =>
    match r.salary with
    | none => false
    | some s => decide (lo ≤ s) && decide (s ≤ hi)

/-- The employer test applied by `employerStep`. -/
def employerPred (inp : FilterInputs) (r : Record) : Bool :=
  inp.employer.isEmpty ||
    (match r.employer with
     | none => false
     | some e => inp.employer.contains e)

/-- The specialty test applied by `specialtyStep`. -/
def specialtyPred (inp : FilterInputs) (r : Record) : Bool :=
  inp.specialty.isEmpty || inp.specialty.contains r.specialty

theorem dateStep_eq_filter (inp : FilterInputs) (d : List Record) :
    dateStep inp d = d.filter (datePred inp) := by
  unfold dateStep datePred
  rcases inp.pubDate with _ | ⟨s, e⟩
  · exact (List.filter_true d).symm
  · rfl

theorem expStep_eq_filter (inp : FilterInputs) (d : List Record) :
    expStep inp d = d.filter (expPred inp) := by
  unfold expStep expPred
  by_cases h : inp.experience.isEmpty <;> simp [h]

theorem regionStep_eq_filter (inp : FilterInputs) (d : List Record) :
    regionStep inp d = d.filter (regionPred inp) := by
  unfold regionStep regionPred
  by_cases h : inp.region.isEmpty <;> simp [h]

theorem salaryStep_eq_filter (inp : FilterInputs) (d : List Record) :
    salaryStep inp d = d.filter (salaryPred inp) := by
  unfold salaryStep salaryPred
  rcases inp.salary with _ | ⟨lo, hi⟩
  · exact (List.filter_true d).symm
  · rfl

theorem employerStep_eq_filter (inp : FilterInputs) (d : List Record) :
    employerStep inp d = d.filter (employerPred inp) := by
  unfold employerStep employerPred
  by_cases h : inp.employer.isEmpty <;> simp [h]

theorem specialtyStep_eq_filter (inp : FilterInputs) (d : List Record) :
    specialtyStep inp d = d.filter (specialtyPred inp) := by
  unfold specialtyStep specialtyPred
  by_cases h : inp.specialty.isEmpty <;> simp [h]

/-- Membership in the filtered dataset is membership in the input dataset
together with the six filter tests. -/
theorem mem_filtered_iff (inp : FilterInputs) (d : List Record) (r : Record) :
    r ∈ filtered_data inp d ↔
      r ∈ d ∧ datePred inp r = true ∧ expPred inp r = true ∧ regionPred inp r = true ∧
        salaryPred inp r = true ∧ employerPred inp r = true ∧ specialtyPred inp r = true := by
  simp only [filtered_data, dateStep_eq_filter, expStep_eq_filter, regionStep_eq_filter,
    salaryStep_eq_filter, employerStep_eq_filter, specialtyStep_eq_filter, List.mem_filter]
  tauto

/-- C1: the co-occurrence matrix is symmetric for every record list,
entity field and pair of labels; on the three example records with skill
sets {s1,s2}, {s1,s3}, {s2,s3} the cells (s1,s2), (s1,s3), (s2,s3) all
equal 1; and every diagonal cell of that example is 0 (cleared, hence
contributing to no similarity computation). -/
theorem co_occurrence_matrix_spec :
    (∀ (data : List Record) (field i j : String),
      (create_co_occurrence_matrix data field).cell i j =
        (create_co_occurrence_matrix data field).cell j i) ∧
    ((create_co_occurrence_matrix exSkillRecords "Обработанные навыки").cell "s1" "s2" = 1 ∧
     (create_co_occurrence_matrix exSkillRecords "Обработанные навыки").cell "s1" "s3" = 1 ∧
     (create_co_occurrence_matrix exSkillRecords "Обработанные навыки").cell "s2" "s3" = 1) ∧
    ((create_co_occurrence_matrix exSkillRecords "Обработанные навыки").cell "s1" "s1" = 0 ∧
     (create_co_occurrence_matrix exSkillRecords "Обработанные навыки").cell "s2" "s2" = 0 ∧
     (create_co_occurrence_matrix exSkillRecords "Обработанные навыки").cell "s3" "s3" = 0) := by
  refine ⟨?_, by decide, by decide⟩
  intro data field i j
  simp only [create_co_occurrence_matrix]
  by_cases h : i = j
  · subst h; rfl
  · rw [if_neg h, if_neg (fun hji => h hji.symm)]
    congr 2
    exact List.filter_congr (fun r _ => Bool.and_comm _ _)

/-- A raw table row used as a concrete input to the processing pipeline. -/
def exRaw : RawRecord :=
  { employer := some "ООО Ромашка", region := "Москва", specialty := "Аналитик",
    experience := "1-3", salary := some 100, pubDate := 10,
    skillText := some "Python, SQL" }

/-- The processed form of `exRaw`. -/
def exProc : Record :=
  { employer := some "ООО Ромашка", region := "Москва", district := "Центральный",
    specialty := "Аналитик", experience := "1-3", salary := some 100,
    pubDate := 10, skills := ["python", "sql"] }

/-- C8: every row of the processed dataset has a non-missing employer —
`processed_data` drops employer-missing rows before anything downstream —
and consequently so does every row of any filtered dataset derived from
it. -/
theorem processed_employer_present (raw : List RawRecord) :
    (∀ r ∈ processed_data raw, r.employer.isSome = true) ∧
    (∀ (inp : FilterInputs), ∀ r ∈ filtered_data inp (processed_data raw),
      r.employer.isSome = true) := by
  have h1 : ∀ r ∈ processed_data raw, r.employer.isSome = true := by
    intro r hr
    simp only [processed_data, List.mem_map] at hr
    obtain ⟨a, ha, rfl⟩ := hr
    exact (List.mem_filter.mp ha).2
  exact ⟨h1, fun inp r hr => h1 r ((mem_filtered_iff inp _ r).mp hr).1⟩

/-- C8 witness: the processed form of a concrete raw row is in the
processed dataset and carries its employer. -/
theorem processed_employer_present_witness :
    exProc ∈ processed_data [exRaw] ∧ exProc.employer.isSome = true :=
  ⟨by decide, (processed_employer_present [exRaw]).1 exProc (by decide)⟩

/-- C9: with a salary range [lo, hi] set, `filtered_data` keeps exactly
the records that pass the remaining filters and whose salary is a present
value inside the closed interval; in particular a record with a missing
salary is never kept. -/
theorem salary_filter_spec (inp : FilterInputs) (lo hi : ℚ) (data : List Record)
    (r : Record) (hs : inp.salary = some (lo, hi)) :
    (r ∈ filtered_data inp data ↔
      (r ∈ filtered_data { inp with salary := none } data ∧
       ∃ s, r.salary = some s ∧ lo ≤ s ∧ s ≤ hi)) ∧
    (r.salary = none → r ∉ filtered_data inp data) := by
  have hiff := mem_filtered_iff inp data r
  have hiff' := mem_filtered_iff { inp with salary := none } data r
  constructor
  · rw [hiff, hiff']
    simp only [salaryPred, hs]
    rcases hr : r.salary with _ | s
    · simp [hr]
    · simp only [hr, Option.some.injEq, Bool.and_eq_true, decide_eq_true_eq]
      constructor
      · rintro ⟨hm, hd, he, hrg, ⟨h1, h2⟩, hemp, hsp⟩
        exact ⟨⟨hm, hd, he, hrg, trivial, hemp, hsp⟩, s, rfl, h1, h2⟩
      · rintro ⟨⟨hm, hd, he, hrg, -, hemp, hsp⟩, s', hs', h1, h2⟩
        cases hs'
        exact ⟨hm, hd, he, hrg, ⟨h1, h2⟩, hemp, hsp⟩
  · intro hnone hmem
    have hsal := (hiff.mp hmem).2.2.2.2.1
    simp [salaryPred, hs, hnone] at hsal

/-- C9 witness: the salary characterization instantiated on a concrete
filter state and record. -/
theorem salary_filter_spec_witness :
    ({ FilterInputs.empty with salary := some (50, 200) } : FilterInputs).salary
        = some (50, 200) ∧
    ((exProc ∈ filtered_data { FilterInputs.empty with salary := some (50, 200) } [exProc] ↔
      (exProc ∈ filtered_data
          { { FilterInputs.empty with salary := some (50, 200) } with salary := none }
          [exProc] ∧
       ∃ s, exProc.salary = some s ∧ 50 ≤ s ∧ s ≤ 200)) ∧
     (exProc.salary = none →
      exProc ∉ filtered_data { FilterInputs.empty with salary := some (50, 200) } [exProc])) :=
  ⟨rfl, salary_filter_spec { FilterInputs.empty with salary := some (50, 200) } 50 200
    [exProc] exProc rfl⟩

theorem mem_bip_inner {m : Matrix} {r : String} {e : String × String × ℚ}
    (he : e ∈ m.cols.filterMap (fun c =>
      if 0 < m.cell r c then some (r, c, m.cell r c) else none)) :
    e.1 = r ∧ e.2.1 ∈ m.cols := by
  rcases List.mem_filterMap.mp he with ⟨c, hc, hg⟩
  split at hg
  · obtain rfl := Option.some.inj hg
    exact ⟨rfl, hc⟩
  · exact absurd hg (by simp)

theorem mem_bipartite_edges (m : Matrix) (a b : String) (w : ℚ) :
    (a, b, w) ∈ (create_bipartite_graph m).edges ↔
      a ∈ m.rows ∧ b ∈ m.cols ∧ 0 < w ∧ m.cell a b = w := by
  simp only [create_bipartite_graph, List.mem_flatMap, List.mem_filterMap]
  constructor
  · rintro ⟨r, hr, c, hc, hg⟩
    split at hg
    · rename_i hpos
      obtain ⟨rfl, rfl, rfl⟩ := Prod.mk.injEq .. ▸ Option.some.inj hg
      exact ⟨hr, hc, hpos, rfl⟩
    · exact absurd hg (by simp)
  · rintro ⟨ha, hb, hw, hcell⟩
    refine ⟨a, ha, b, hb, ?_⟩
    rw [if_pos (hcell ▸ hw : (0:ℚ) < m.cell a b), hcell]

theorem bipartite_edges_nodup (m : Matrix) (hr : m.rows.Nodup) (hc : m.cols.Nodup) :
    (create_bipartite_graph m).edges.Nodup := by
  unfold create_bipartite_graph
  rw [List.nodup_flatMap]
  refine ⟨fun r _ => ?_, ?_⟩
  · refine List.Nodup.filterMap ?_ hc
    intro c c' e he he'
    have h1 : e.2.1 = c := by
      split at he
      · obtain rfl := (Option.some.inj (Option.mem_def.mp he)).symm
        rfl
      · exact absurd he (by simp)
    have h2 : e.2.1 = c' := by
      split at he'
      · obtain rfl := (Option.some.inj (Option.mem_def.mp he')).symm
        rfl
      · exact absurd he' (by simp)
    exact h1 ▸ h2
  · refine hr.imp ?_
    intro r r' hne e her her'
    exact hne ((mem_bip_inner her).1.symm.trans (mem_bip_inner her').1)

/-- C2: for a grouped matrix with duplicate-free row and column
vocabularies, the bipartite graph has exactly one edge per strictly
positive cell (membership characterization plus a duplicate-free edge
list), every edge runs from a row-partition node to a column-partition
node (never between two nodes of the same partition), and on the example
matrix with counts A-X=3, A-Y=0, B-X=1, B-Y=2 the edges are exactly
A-X weight 3, B-X weight 1, B-Y weight 2, with no A-Y edge of any
weight. -/
theorem bipartite_graph_spec (m : Matrix) (hr : m.rows.Nodup) (hc : m.cols.Nodup) :
    (∀ (a b : String) (w : ℚ), (a, b, w) ∈ (create_bipartite_graph m).edges ↔
      a ∈ m.rows ∧ b ∈ m.cols ∧ 0 < w ∧ m.cell a b = w) ∧
    (create_bipartite_graph m).edges.Nodup ∧
    (∀ e ∈ (create_bipartite_graph m).edges,
      (e.1, NodeTag.row) ∈ (create_bipartite_graph m).nodes ∧
      (e.2.1, NodeTag.col) ∈ (create_bipartite_graph m).nodes) ∧
    (create_bipartite_graph exMatrix).edges =
      [("A", "X", 3), ("B", "X", 1), ("B", "Y", 2)] ∧
    (∀ w : ℚ, ("A", "Y", w) ∉ (create_bipartite_graph exMatrix).edges) := by
  have hex : (create_bipartite_graph exMatrix).edges =
      [("A", "X", 3), ("B", "X", 1), ("B", "Y", 2)] := by decide
  refine ⟨fun a b w => mem_bipartite_edges m a b w, bipartite_edges_nodup m hr hc, ?_, hex, ?_⟩
  · intro e he
    rcases List.mem_flatMap.mp he with ⟨r, hrm, hin⟩
    obtain ⟨h1, h2⟩ := mem_bip_inner hin
    constructor
    · exact List.mem_append.mpr (Or.inl (List.mem_map.mpr ⟨e.1, h1 ▸ hrm, rfl⟩))
    · exact List.mem_append.mpr (Or.inr (List.mem_map.mpr ⟨e.2.1, h2, rfl⟩))
  · intro w hw
    rw [hex] at hw
    simp at hw

/-- C2 witness: the example matrix has duplicate-free vocabularies, and
its bipartite graph has exactly the three expected edges. -/
theorem bipartite_graph_spec_witness :
    (exMatrix.rows.Nodup ∧ exMatrix.cols.Nodup) ∧
    (create_bipartite_graph exMatrix).edges =
      [("A", "X", 3), ("B", "X", 1), ("B", "Y", 2)] :=
  ⟨⟨by decide, by decide⟩,
   (bipartite_graph_spec exMatrix (by decide) (by decide)).2.2.2.1⟩

theorem mem_insWith {le : α → α → Bool} {a x : α} {l : List α} :
    x ∈ insWith le a l ↔ x = a ∨ x ∈ l := by
  induction l with
  | nil => simp [insWith]
  | cons b bs ih =>
    simp only [insWith]
    split
    · simp [List.mem_cons]
    · simp only [List.mem_cons, ih]
      tauto

theorem mem_sortWith {le : α → α → Bool} {x : α} {l : List α} :
    x ∈ sortWith le l ↔ x ∈ l := by
  induction l with
  | nil => simp [sortWith]
  | cons a as ih => simp [sortWith, mem_insWith, ih]

theorem pairwise_insWith {le : α → α → Bool}
    (htot : ∀ a b, le a b = true ∨ le b a = true)
    (htrans : ∀ a b c, le a b = true → le b c = true → le a c = true)
    (a : α) {l : List α} (h : l.Pairwise (fun x y => le x y = true)) :
    (insWith le a l).Pairwise (fun x y => le x y = true) := by
  induction l with
  | nil => simp [insWith]
  | cons b bs ih =>
    rcases List.pairwise_cons.mp h with ⟨hb, hbs⟩
    simp only [insWith]
    split
    · rename_i hab
      refine List.pairwise_cons.mpr ⟨?_, h⟩
      intro x hx
      rcases List.mem_cons.mp hx with rfl | hx'
      · exact hab
      · exact htrans a b x hab (hb x hx')
    · rename_i hab
      refine List.pairwise_cons.mpr ⟨?_, ih hbs⟩
      intro x hx
      rcases mem_insWith.mp hx with rfl | hx'
      · rcases htot b x with h' | h'
        · exact h'
        · exact absurd h' hab
      · exact hb x hx'

theorem pairwise_sortWith {le : α → α → Bool}
    (htot : ∀ a b, le a b = true ∨ le b a = true)
    (htrans : ∀ a b c, le a b = true → le b c = true → le a c = true)
    (l : List α) : (sortWith le l).Pairwise (fun x y => le x y = true) := by
  induction l with
  | nil => simp [sortWith]
  | cons a as ih => exact pairwise_insWith htot htrans a ih

theorem recLE_total (x y : String × ℚ) : recLE x y = true ∨ recLE y x = true := by
  simp only [recLE, Bool.or_eq_true, Bool.and_eq_true, decide_eq_true_eq]
  rcases lt_trichotomy x.2 y.2 with h | h | h
  · exact Or.inr (Or.inl h)
  · rcases le_total x.1 y.1 with h' | h'
    · exact Or.inl (Or.inr ⟨h, h'⟩)
    · exact Or.inr (Or.inr ⟨h.symm, h'⟩)
  · exact Or.inl (Or.inl h)

theorem recLE_trans (x y z : String × ℚ)
    (hxy : recLE x y = true) (hyz : recLE y z = true) : recLE x z = true := by
  simp only [recLE, Bool.or_eq_true, Bool.and_eq_true, decide_eq_true_eq] at *
  rcases hxy with h1 | ⟨h1, h1'⟩ <;> rcases hyz with h2 | ⟨h2, h2'⟩
  · exact Or.inl (lt_trans h2 h1)
  · exact Or.inl (h2 ▸ h1)
  · exact Or.inl (lt_of_lt_of_le h2 (le_of_eq h1.symm))
  · exact Or.inr ⟨h1.trans h2, le_trans h1' h2'⟩

theorem recLE_score_le {x y : String × ℚ} (h : recLE x y = true) : y.2 ≤ x.2 := by
  simp only [recLE, Bool.or_eq_true, Bool.and_eq_true, decide_eq_true_eq] at h
  rcases h with h | ⟨h, -⟩
  · exact le_of_lt h
  · exact le_of_eq h.symm

/-- C3: when the target node is present on the chosen axis, the
similar-node recommendation list never contains the target itself, has at
most the requested top-N entries, and its scores are sorted in
non-increasing order. -/
theorem recommend_similar_nodes_spec (G : Graph) (node lt : String) (n : Nat)
    (h : node ∈ axisNodes G lt) :
    (∀ p ∈ recommend_similar_nodes G node lt n, p.1 ≠ node) ∧
    (recommend_similar_nodes G node lt n).length ≤ n ∧
    (recommend_similar_nodes G node lt n).Pairwise
      (fun x y : String × ℚ => y.2 ≤ x.2) := by
  simp only [recommend_similar_nodes, if_pos h]
  refine ⟨?_, List.length_take_le n _, ?_⟩
  · intro p hp
    have hp1 : p ∈ sortWith recLE _ := List.mem_of_mem_take hp
    have hp2 := mem_sortWith.mp hp1
    obtain ⟨b, hb, rfl⟩ := List.mem_map.mp hp2
    simpa using (List.mem_filter.mp hb).2
  · have hs := pairwise_sortWith recLE_total recLE_trans
      ((axisNodes G lt).filter (fun b => b ≠ node) |>.map
        (fun b => (b, cosSq (featureVec G (axisNodes G
          (if lt = "first" then "second" else "first")) node)
          (featureVec G (axisNodes G (if lt = "first" then "second" else "first")) b))))
    exact (hs.imp (fun hxy => recLE_score_le hxy)).sublist (List.take_sublist n _)

/-- C3 witness: the recommendation guarantees at the example bipartite
graph, target node A on the row axis, top-N 2. -/
theorem recommend_similar_nodes_spec_witness :
    "A" ∈ axisNodes exGraph "second" ∧
    ((∀ p ∈ recommend_similar_nodes exGraph "A" "second" 2, p.1 ≠ "A") ∧
     (recommend_similar_nodes exGraph "A" "second" 2).length ≤ 2 ∧
     (recommend_similar_nodes exGraph "A" "second" 2).Pairwise
       (fun x y : String × ℚ => y.2 ≤ x.2)) :=
  ⟨by decide, recommend_similar_nodes_spec exGraph "A" "second" 2 (by decide)⟩

end NetworkDashboard
